import Mathlib

/-!
Verification development for the `aisdk-mcp-retrieval` repository.

The repository is a TypeScript chat application whose interesting logic is:
a deterministic `DatabaseOrchestrator` (regex parsing of remote tool output,
fuzzy project matching, a trace log accumulated on the instance), a library
of four schema-validated tool wrappers around a remote protocol client, a
tool-bundle factory, and a family of chat API route handlers.

This file shallowly embeds those parts.  JavaScript values that flow through
`callTool` are modelled by `JValue`; a thrown JavaScript value is a
`JSError` (either an `Error` instance carrying a message or any other
value); a promise that can reject is `Except JSError _`.  The remote
protocol client is an oracle (`MCPClient` for the single-object calling
convention used by the orchestrator, `MCPClient2` for the two-argument
convention used by the tool wrappers).  The two regular expressions of the
orchestrator are embedded as deterministic scanners equivalent to the
JavaScript global-`exec` loops of the source (the patterns contain no
ambiguous backtracking: every quantified class is disjoint from what
follows it, so maximal-munch scanning coincides with the regex engine).
-/

/-! ## JavaScript value model -/

/-- A JSON-like JavaScript runtime value, as produced by `callTool`. -/
inductive JValue where
  | jnull : JValue
  | jbool : Bool → JValue
  | jnum : Int → JValue
  | jstr : String → JValue
  | jarr : List JValue → JValue
  | jobj : List (String × JValue) → JValue

/-- A thrown JavaScript value: an `Error` instance (with its `message`),
or any other value (`error instanceof Error` is false for it). -/
inductive JSError where
  | err : String → JSError
  | nonError : JValue → JSError

/-- `error instanceof Error ? error.message : fallback` -/
def jsErrMessageOr : JSError → String → String
  | .err m, _ => m
  | .nonError _, fb => fb

/-- JavaScript truthiness test (`!v`): null, `false`, `0`, `""` are falsy. -/
def jsFalsy : JValue → Bool
  | .jnull => true
  | .jbool b => !b
  | .jnum n => n == 0
  | .jstr s => s == ""
  | _ => false

/-- `v || d` for an optional string argument: JavaScript treats both a
missing argument and the empty string as falsy. -/
def jsOrStr (v : Option String) (d : String) : String :=
  match v with
  | none => d
  | some s => if s == "" then d else s

/-- First-match lookup of a key in a JavaScript object's field list. -/
def lookupField (k : String) : List (String × JValue) → Option JValue
  | [] => none
  | (k2, v) :: rest => if k2 == k then some v else lookupField k rest

/-- `v.k` property access (non-objects have no string-keyed fields here). -/
def JValue.getField : JValue → String → Option JValue
  | .jobj fields, k => lookupField k fields
  | _, _ => none

/-- `v.k1.k2` nested property access. -/
def JValue.getPath (v : JValue) (k1 k2 : String) : Option JValue :=
  (v.getField k1).bind (fun w => w.getField k2)

mutual
/-- `JSON.stringify`, without string-escape fidelity (none of the values the
theorems touch require escaping). -/
def stringifyJ : JValue → String
  | .jnull => "null"
  | .jbool true => "true"
  | .jbool false => "false"
  | .jnum n => toString n
  | .jstr s => "\"" ++ s ++ "\""
  | .jarr xs => "[" ++ stringifyArr xs ++ "]"
  | .jobj fs => "\x7b" ++ stringifyObj fs ++ "\x7d"

def stringifyArr : List JValue → String
  | [] => ""
  | [x] => stringifyJ x
  | x :: y :: xs => stringifyJ x ++ "," ++ stringifyArr (y :: xs)

def stringifyObj : List (String × JValue) → String
  | [] => ""
  | [(k, v)] => "\"" ++ k ++ "\":" ++ stringifyJ v
  | (k, v) :: f :: fs => "\"" ++ k ++ "\":" ++ stringifyJ v ++ "," ++ stringifyObj (f :: fs)
end

/-- The orchestrator's conversion of a `callTool` result to text:
`typeof r === 'string' ? r : (r?.content?.[0]?.text || JSON.stringify(r))`. -/
def resultToStr (v : JValue) : String :=
  match v with
  | .jstr s => s
  | _ =>
    match v.getField "content" with
    | some (.jarr (first :: _)) =>
      match first.getField "text" with
      | some (.jstr t) => if t == "" then stringifyJ v else t
      | _ => stringifyJ v
    | _ => stringifyJ v

/-! ## String helpers mirroring the JavaScript string built-ins used -/

/-- The whitespace class of JavaScript's `\s` (restricted to the code points
that can occur in this system's data). -/
def isJsWs (c : Char) : Bool :=
  c == ' ' || c == '\t' || c == '\n' || c == '\r' || c == '\x0b' || c == '\x0c' || c == '\u00A0'

/-- Character-range test for regex character classes. -/
def charBetween (lo hi c : Char) : Bool :=
  if lo ≤ c ∧ c ≤ hi then true else false

/-- The id class of the project regex: `[a-f0-9-]`. -/
def isIdChar (c : Char) : Bool :=
  charBetween 'a' 'f' c || charBetween '0' '9' c || c == '-'

/-- The word class of the table regex: `[a-zA-Z0-9_]`. -/
def isWordChar (c : Char) : Bool :=
  charBetween 'a' 'z' c || charBetween 'A' 'Z' c || charBetween '0' '9' c || c == '_'

/-- Does `needle` occur contiguously in the char list? -/
def includesChars (needle : List Char) : List Char → Bool
  | [] => needle.isEmpty
  | c :: cs => needle.isPrefixOf (c :: cs) || includesChars needle cs

/-- `String.includes`: the needle occurs contiguously inside the haystack. -/
def strIncludes (hay needle : String) : Bool :=
  includesChars needle.toList hay.toList

/-- JavaScript `String.prototype.trim` (over the same whitespace class). -/
def jsTrim (s : String) : String :=
  String.mk (((s.toList.dropWhile isJsWs).reverse.dropWhile isJsWs).reverse)

/-- `String.prototype.toLowerCase` (ASCII range, which covers every string
this system lowercases). -/
def jsToLower (s : String) : String :=
  String.mk (s.toList.map Char.toLower)

/-- `String.prototype.slice(0, n)`. -/
def jsSlice (s : String) (n : Nat) : String :=
  String.mk (s.toList.take n)

/-- Consume an exact literal from the front of the input. -/
def dropLit : List Char → List Char → Option (List Char)
  | [], s => some s
  | p :: ps, c :: cs => if p == c then dropLit ps cs else none
  | _ :: _, [] => none

/-- One global-replace pass of `s.replace(/pat/g, '')` for a literal,
non-empty pattern: scan left to right, removing each occurrence.  `fuel`
bounds the recursion; it is instantiated with more steps than the scan can
take, so it never truncates. -/
def removeAllAux : Nat → List Char → List Char → List Char
  | 0, _, _ => []
  | _, _, [] => []
  | fuel + 1, pat, c :: cs =>
    if pat.isPrefixOf (c :: cs) then removeAllAux fuel pat ((c :: cs).drop pat.length)
    else c :: removeAllAux fuel pat cs

/-- `s.replace(/pat/g, '')` for a literal pattern. -/
def removeAllOcc (pat : String) (s : String) : String :=
  String.mk (removeAllAux (s.toList.length + 1) pat.toList s.toList)

/-- The orchestrator-driven handler's SQL cleanup:
`sql.replace(/\x60\x60\x60sql/g, '').replace(/\x60\x60\x60/g, '').trim()`. -/
def cleanerSql (sql : String) : String :=
  jsTrim (removeAllOcc "```" (removeAllOcc "```sql" sql))

/-! ## The orchestrator's two regular expressions

`projectRegex`: two asterisks, capture `[^*]+`, two asterisks, `\s+`, the
class en-dash-or-hyphen, `\s+`, the literal `Project ID:`, `\s+`, an
optional backtick, capture `[a-f0-9-]+`, an optional backtick (global).
`tableRegex`: a hyphen, `\s+`, `\**`, capture `[a-zA-Z0-9_]+`, `\**`
(global).

Each quantified piece is over a character class disjoint from the literal
that follows it, so the regex engine's match at a given start position is
the maximal-munch match computed below; the only optional piece (the
backtick before the id) fails over to the no-backtick alternative exactly
when the id class cannot start at the backtick itself, which is never, so
consuming the backtick when present is faithful. -/

/-- A parsed `{name, id}` project. -/
structure Project where
  name : String
  id : String
deriving DecidableEq, Repr

/-- Attempt `projectRegex` at the head of the input; on success return the
trimmed capture groups and the input after the whole match. -/
def matchProjectAt (s : List Char) : Option ((String × String) × List Char) :=
  match s with
  | '*' :: '*' :: s1 =>
    let name := s1.takeWhile (fun c => c != '*')
    let s2 := s1.dropWhile (fun c => c != '*')
    if name.isEmpty then none else
    match s2 with
    | '*' :: '*' :: s3 =>
      let ws1 := s3.takeWhile isJsWs
      let s4 := s3.dropWhile isJsWs
      if ws1.isEmpty then none else
      match s4 with
      | d :: s5 =>
        if d == '–' || d == '-' then
          let ws2 := s5.takeWhile isJsWs
          let s6 := s5.dropWhile isJsWs
          if ws2.isEmpty then none else
          match dropLit ("Project ID:".toList) s6 with
          | none => none
          | some s7 =>
            let ws3 := s7.takeWhile isJsWs
            let s8 := s7.dropWhile isJsWs
            if ws3.isEmpty then none else
            let s9 := match s8 with
              | '`' :: rest => rest
              | _ => s8
            let idChars := s9.takeWhile isIdChar
            let s10 := s9.dropWhile isIdChar
            if idChars.isEmpty then none else
            let s11 := match s10 with
              | '`' :: rest => rest
              | _ => s10
            some ((jsTrim (String.mk name), jsTrim (String.mk idChars)), s11)
        else none
      | [] => none
    | _ => none
  | _ => none

/-- The `while ((match = projectRegex.exec(str)) !== null)` loop: slide over
the input, collecting non-overlapping matches left to right.  `fuel` is
instantiated above the input length; every loop step either consumes at
least one character through a match or slides by one. -/
def runProjectRegex : Nat → List Char → List Project
  | 0, _ => []
  | _, [] => []
  | fuel + 1, c :: cs =>
    match matchProjectAt (c :: cs) with
    | some ((n, i), rest) => { name := n, id := i } :: runProjectRegex fuel rest
    | none => runProjectRegex fuel cs

/-- The orchestrator's project extraction (regex loop over the listing text). -/
def parseProjects (s : String) : List Project :=
  runProjectRegex (s.toList.length + 1) s.toList

/-- Attempt `tableRegex` at the head of the input. -/
def matchTableAt (s : List Char) : Option (String × List Char) :=
  match s with
  | '-' :: s1 =>
    let ws := s1.takeWhile isJsWs
    let s2 := s1.dropWhile isJsWs
    if ws.isEmpty then none else
    let s3 := s2.dropWhile (fun c => c == '*')
    let word := s3.takeWhile isWordChar
    let s4 := s3.dropWhile isWordChar
    if word.isEmpty then none else
    let s5 := s4.dropWhile (fun c => c == '*')
    some (String.mk word, s5)
  | _ => none

/-- The global-exec loop for `tableRegex`. -/
def runTableRegex : Nat → List Char → List String
  | 0, _ => []
  | _, [] => []
  | fuel + 1, c :: cs =>
    match matchTableAt (c :: cs) with
    | some (t, rest) => t :: runTableRegex fuel rest
    | none => runTableRegex fuel cs

/-- The orchestrator's table-name extraction. -/
def parseTables (s : String) : List String :=
  runTableRegex (s.toList.length + 1) s.toList

/-! ## Protocol client model

`createNeonMCPClient()` constructs a client over a streaming HTTP transport;
the embedding replaces the remote service by an oracle.  The orchestrator
and some handlers invoke `callTool({name, arguments})` (single-object
convention); the tool wrapper library invokes `callTool(name, args)`
(two-argument convention).  Both may reject. -/

/-- The single-object `callTool` invocation shape `{name, arguments}`. -/
structure ToolCall where
  name : String
  arguments : JValue

/-- A protocol client as used through the single-object convention.
`close` is `none` when the object exposes no close method (the
orchestrator's `close` checks `typeof this.mcpClient.close === 'function'`). -/
structure MCPClient where
  callTool : ToolCall → Except JSError JValue
  tools : Except JSError JValue
  close : Option (Except JSError Unit)

/-- A protocol client as used through the two-argument convention
(`callTool(name, args)`), the shape assumed by the tool wrapper library
and the tool bundle factory. -/
structure MCPClient2 where
  callTool : String → JValue → Except JSError JValue

/-- The process environment of one request: what `createNeonMCPClient()`
yields (a client, or a thrown construction error). -/
structure Env where
  createClient : Except JSError MCPClient

/-! ## Database Orchestrator -/

/-- Resource-accounting events (instrumentation for the close-after-use
claims): a client construction, or an invocation of its close method. -/
inductive REvent where
  | created
  | closed
deriving DecidableEq, Repr

/-- The data payload of a `PipelineResult`, one variant per pipeline stage
(plus the raw payload `runQuery` returns). -/
inductive StageData where
  | projectsListedRaw (projects : String)
  | projectsListed (projects : List Project) (message : String)
  | fullyResolved (project : Project) (tables : List String) (schemas : List String)
  | raw (v : JValue)

/-- The orchestrator's uniform return value. -/
structure PipelineResult where
  success : Bool
  data : Option StageData
  error : Option String
  logs : List String

/-- The `stage` string carried in the data payload. -/
def StageData.stage : StageData → Option String
  | .projectsListedRaw _ => some "projects_listed"
  | .projectsListed _ _ => some "projects_listed"
  | .fullyResolved _ _ _ => some "fully_resolved"
  | .raw _ => none

/-- `result.data?.stage`. -/
def PipelineResult.stage (r : PipelineResult) : Option String :=
  r.data.bind StageData.stage

/-- `result.data.project` of a fully resolved result. -/
def PipelineResult.projectOf (r : PipelineResult) : Option Project :=
  match r.data with
  | some (.fullyResolved p _ _) => some p
  | _ => none

/-- `result.data.tables` of a fully resolved result. -/
def PipelineResult.tablesOf (r : PipelineResult) : Option (List String) :=
  match r.data with
  | some (.fullyResolved _ t _) => some t
  | _ => none

/-- `result.data.schemas` of a fully resolved result. -/
def PipelineResult.schemasOf (r : PipelineResult) : Option (List String) :=
  match r.data with
  | some (.fullyResolved _ _ s) => some s
  | _ => none

/-- The `DatabaseOrchestrator` instance state: the lazily constructed client
and the trace log, plus the resource-event instrumentation. -/
structure Orchestrator where
  mcpClient : Option MCPClient
  logs : List String
  trace : List REvent

/-- `new DatabaseOrchestrator()`. -/
def Orchestrator.fresh : Orchestrator :=
  { mcpClient := none, logs := [], trace := [] }

/-- `this.log(message)`: console output plus a push onto `this.logs`. -/
def Orchestrator.log (o : Orchestrator) (message : String) : Orchestrator :=
  { o with logs := o.logs ++ [message] }

/-- `this.init()`: construct the client on first use, keeping it afterwards.
The log line is pushed before the construction is awaited, so it survives a
construction failure. -/
def Orchestrator.init (env : Env) (o : Orchestrator) :
    Except JSError MCPClient × Orchestrator :=
  match o.mcpClient with
  | some c => (.ok c, o)
  | none =>
    let o := o.log "Initializing MCP Client..."
    match env.createClient with
    | .ok c => (.ok c, { o with mcpClient := some c, trace := o.trace ++ [.created] })
    | .error e => (.error e, o)

/-- The failed `PipelineResult` built by a method's `catch` branch. -/
def catchPipeline (e : JSError) (fallback : String) (o : Orchestrator) : PipelineResult :=
  { success := false, data := none, error := some (jsErrMessageOr e fallback), logs := o.logs }

/-- The arguments object of the orchestrator's `list_projects` call. -/
def listProjectsCallArgs : JValue := .jobj [("name", .jstr "")]

/-- The arguments object of the orchestrator's `get_database_tables` call. -/
def getTablesCallArgs (projectId : String) : JValue :=
  .jobj [("project_id", .jstr projectId), ("branch_id", .jstr "main"),
         ("database_name", .jstr "neondb")]

/-- The arguments object of the orchestrator's `describe_table_schema` call. -/
def describeSchemaCallArgs (projectId tableName : String) : JValue :=
  .jobj [("project_id", .jstr projectId), ("table_name", .jstr tableName),
         ("database_name", .jstr "neondb")]

/-- The arguments object of the orchestrator's `run_sql` call — note: no
`database_name` field, unlike every other run-query call path in the repo. -/
def runSqlCallArgs (projectId query : String) : JValue :=
  .jobj [("project_id", .jstr projectId), ("query", .jstr query)]

/-- Step 3 of `getDatabaseContext`: sequentially describe every discovered
table, accumulating schema texts in table order (a rejection aborts the
loop and propagates to the method's catch). -/
def describeTables (client : MCPClient) (projectId : String) :
    List String → Orchestrator → Except JSError (List String) × Orchestrator
  | [], o => (.ok [], o)
  | table :: rest, o =>
    let o := o.log ("Step 3: Describing table " ++ table ++ "...")
    match client.callTool ⟨"describe_table_schema", describeSchemaCallArgs projectId table⟩ with
    | .error e => (.error e, o)
    | .ok schemaResult =>
      let schemaStr := resultToStr schemaResult
      match describeTables client projectId rest o with
      | (.ok schemas, o2) => (.ok (schemaStr :: schemas), o2)
      | (.error e, o2) => (.error e, o2)

/-- The tail of `getDatabaseContext` from project parsing onwards: parse the
listing text, fuzzy-match the user query, and either report the listing
(`projects_listed`) or resolve the first matching project, fetch its tables
and their schemas, and report `fully_resolved`. -/
def Orchestrator.resolveFromProjects (o : Orchestrator) (client : MCPClient)
    (userQuery projectsStr : String) : PipelineResult × Orchestrator :=
  let projects := parseProjects projectsStr
  if projects.isEmpty then
    let o := o.log "Could not parse project list via regex."
    ({ success := true, data := some (.projectsListedRaw projectsStr),
       error := none, logs := o.logs }, o)
  else
    let lowerQuery := jsToLower userQuery
    let validProjects := projects.filter (fun p => strIncludes lowerQuery (jsToLower p.name))
    match validProjects.head? with
    | none =>
      ({ success := true,
         data := some (.projectsListed projects
           "Multiple projects found. Please specify which one."),
         error := none, logs := o.logs }, o)
    | some targetProject =>
      let o := o.log ("Found target project: " ++ targetProject.name ++
        " (" ++ targetProject.id ++ ")")
      let o := o.log ("Step 2: Getting tables for " ++ targetProject.name ++ "...")
      match client.callTool ⟨"get_database_tables", getTablesCallArgs targetProject.id⟩ with
      | .error e => (catchPipeline e "Unknown error" o, o)
      | .ok tablesResult =>
        let tablesStr := resultToStr tablesResult
        let tables := parseTables tablesStr
        match describeTables client targetProject.id tables o with
        | (.error e, o) => (catchPipeline e "Unknown error" o, o)
        | (.ok schemas, o) =>
          ({ success := true,
             data := some (.fullyResolved targetProject tables schemas),
             error := none, logs := o.logs }, o)

/-- `getDatabaseContext(userQuery)`: init the client, list the projects,
then resolve (any thrown error becomes a failed result carrying the
accumulated logs). -/
def Orchestrator.getDatabaseContext (env : Env) (o : Orchestrator)
    (userQuery : String) : PipelineResult × Orchestrator :=
  match o.init env with
  | (.error e, o) => (catchPipeline e "Unknown error" o, o)
  | (.ok client, o) =>
    let o := o.log "Step 1: Listing Projects..."
    match client.callTool ⟨"list_projects", listProjectsCallArgs⟩ with
    | .error e => (catchPipeline e "Unknown error" o, o)
    | .ok projectsResult =>
      if jsFalsy projectsResult then
        (catchPipeline (.err "Failed to list projects") "Unknown error" o, o)
      else
        let projectsStr := resultToStr projectsResult
        let o := o.log ("Projects output: " ++ jsSlice projectsStr 100 ++ "...")
        o.resolveFromProjects client userQuery projectsStr

/-- `runQuery(projectId, query)`: execute arbitrary SQL via `run_sql`. -/
def Orchestrator.runQuery (env : Env) (o : Orchestrator)
    (projectId query : String) : PipelineResult × Orchestrator :=
  match o.init env with
  | (.error e, o) => (catchPipeline e "Query execution failed" o, o)
  | (.ok client, o) =>
    let o := o.log ("Executing query on project " ++ projectId ++ ": " ++ query)
    match client.callTool ⟨"run_sql", runSqlCallArgs projectId query⟩ with
    | .error e => (catchPipeline e "Query execution failed" o, o)
    | .ok result =>
      ({ success := true, data := some (.raw result), error := none, logs := o.logs }, o)

/-- `close()`: invoke the held client's close method if the client was
constructed and exposes one. -/
def Orchestrator.closeClient (o : Orchestrator) : Except JSError Unit × Orchestrator :=
  match o.mcpClient with
  | none => (.ok (), o)
  | some c =>
    match c.close with
    | none => (.ok (), o)
    | some r => (r, { o with trace := o.trace ++ [.closed] })

/-! ## Tool Wrapper Library (lib/tools)

Four schema-validated tool definitions, each late-binding an injected
client.  Optional inputs are `Option String` (absent = not provided by the
model); defaults are applied with JavaScript `||`.  Every `execute` catches
a rejection of the remote call and resolves with `{error: message}`. -/

/-- `listProjectsTool`: argument envelope (a flat empty object). -/
def listProjectsTool.callArgs : JValue := .jobj []

/-- `listProjectsTool.execute`. -/
def listProjectsTool.execute (mcpClient : MCPClient2) : JValue :=
  match mcpClient.callTool "list_projects" listProjectsTool.callArgs with
  | .ok result => result
  | .error e => .jobj [("error", .jstr (jsErrMessageOr e "Failed to list projects"))]

/-- `getProjectTablesTool`: argument envelope — the arguments are wrapped in
a nested `params` object, with defaults `branch_id: "main"` and
`database_name: "neondb"`. -/
def getProjectTablesTool.callArgs (projectId : String)
    (branchId databaseName : Option String) : JValue :=
  .jobj [("params", .jobj [
    ("name", .jstr "get_database_tables"),
    ("project_id", .jstr projectId),
    ("branch_id", .jstr (jsOrStr branchId "main")),
    ("database_name", .jstr (jsOrStr databaseName "neondb"))])]

/-- `getProjectTablesTool.execute`. -/
def getProjectTablesTool.execute (mcpClient : MCPClient2) (projectId : String)
    (branchId databaseName : Option String) : JValue :=
  match mcpClient.callTool "get_database_tables"
      (getProjectTablesTool.callArgs projectId branchId databaseName) with
  | .ok result => result
  | .error e => .jobj [("error", .jstr (jsErrMessageOr e "Failed to get tables"))]

/-- `runQueryTool`: argument envelope — nested `params` object with default
`database_name: "neondb"`. -/
def runQueryTool.callArgs (projectId query : String)
    (databaseName : Option String) : JValue :=
  .jobj [("params", .jobj [
    ("name", .jstr "run_sql"),
    ("project_id", .jstr projectId),
    ("query", .jstr query),
    ("database_name", .jstr (jsOrStr databaseName "neondb"))])]

/-- `runQueryTool.execute`. -/
def runQueryTool.execute (mcpClient : MCPClient2) (projectId query : String)
    (databaseName : Option String) : JValue :=
  match mcpClient.callTool "run_sql" (runQueryTool.callArgs projectId query databaseName) with
  | .ok result => result
  | .error e => .jobj [("error", .jstr (jsErrMessageOr e "Failed to run query"))]

/-- `describeTableTool`: argument envelope — a flat object with an embedded
`name` field and default `database_name: "neondb"`. -/
def describeTableTool.callArgs (projectId tableName : String)
    (databaseName : Option String) : JValue :=
  .jobj [
    ("name", .jstr "describe_table_schema"),
    ("project_id", .jstr projectId),
    ("table_name", .jstr tableName),
    ("database_name", .jstr (jsOrStr databaseName "neondb"))]

/-- `describeTableTool.execute`. -/
def describeTableTool.execute (mcpClient : MCPClient2) (projectId tableName : String)
    (databaseName : Option String) : JValue :=
  match mcpClient.callTool "describe_table_schema"
      (describeTableTool.callArgs projectId tableName databaseName) with
  | .ok result => result
  | .error e => .jobj [("error", .jstr (jsErrMessageOr e "Failed to describe table"))]

/-! ## Tool Bundle Factory (`lib/mcp.ts`'s `createNeonTools`)

The alternate, inline implementation: flat argument envelopes, JSON
stringification of the result, and no catch (a rejection propagates). -/

/-- `createNeonTools.getProjectTables`: flat envelope, `branch_id` defaulted
with `||`, `database_name` hard-coded. -/
def neonToolsGetProjectTablesArgs (projectId : String) (branchId : Option String) : JValue :=
  .jobj [("project_id", .jstr projectId),
         ("branch_id", .jstr (jsOrStr branchId "main")),
         ("database_name", .jstr "neondb")]

/-- `createNeonTools.getProjectTables.execute` (no catch: rejections propagate). -/
def neonToolsGetProjectTables (mcpClient : MCPClient2) (projectId : String)
    (branchId : Option String) : Except JSError String :=
  match mcpClient.callTool "get_database_tables"
      (neonToolsGetProjectTablesArgs projectId branchId) with
  | .ok result => .ok (stringifyJ result)
  | .error e => .error e

/-- `createNeonTools.runQuery`: flat envelope with hard-coded `database_name`. -/
def neonToolsRunQueryArgs (projectId query : String) : JValue :=
  .jobj [("project_id", .jstr projectId),
         ("query", .jstr query),
         ("database_name", .jstr "neondb")]

/-- `createNeonTools.runQuery.execute` (no catch: rejections propagate). -/
def neonToolsRunQuery (mcpClient : MCPClient2) (projectId query : String) :
    Except JSError String :=
  match mcpClient.callTool "run_sql" (neonToolsRunQueryArgs projectId query) with
  | .ok result => .ok (stringifyJ result)
  | .error e => .error e

/-! ## Chat API route handlers

Each handler is reduced to its setup control flow: which awaited steps can
throw, whether a catch converts the error into the HTTP 500 JSON body, and
(for the orchestrator-driven variant) the full orchestration pipeline.
Streaming itself is represented by an opaque `streamResponse` outcome. -/

/-- The observable outcome of a handler invocation that did not itself
throw: a started stream, or an HTTP error response. -/
inductive HandlerOutcome where
  | streamResponse (label : String)
  | errorResponse (status : Nat) (error : String) (details : String)
deriving DecidableEq, Repr

/-- The 500 response produced by the handlers' catch branches:
`{error: "Failed to process your request", details: message or "Unknown error"}`. -/
def http500 (e : JSError) : HandlerOutcome :=
  .errorResponse 500 "Failed to process your request" (jsErrMessageOr e "Unknown error")

/-- The model-generation oracle of the orchestrator-driven handler:
`generateText` over the schema texts and the user request, yielding the SQL
text (or rejecting). -/
structure GenEnv where
  generateSql : List String → String → Except JSError String

/-- The primary `app/api/chat/route.ts` handler (granite, raw client tools):
setup inside try/catch; a client-construction failure becomes the 500 body. -/
def chatPOSTPrimary (env : Env) : HandlerOutcome :=
  match env.createClient with
  | .error e => http500 e
  | .ok _mcpClient => .streamResponse "primary-granite-raw-tools"

/-- The superseded wrapped-tools handler (ministral + `createNeonTools`):
same try/catch shape as the primary handler. -/
def chatPOSTWrapped (env : Env) : HandlerOutcome :=
  match env.createClient with
  | .error e => http500 e
  | .ok _mcpClient => .streamResponse "wrapped-tools-ministral"

/-- The raw-tools handler variant (gemma3, no try/catch): construction and
tool-listing failures propagate out of the handler uncaught. -/
def chatPOSTRawGemma (env : Env) : Except JSError HandlerOutcome :=
  match env.createClient with
  | .error e => .error e
  | .ok mcpClient =>
    match mcpClient.tools with
    | .error e => .error e
    | .ok _tools => .ok (.streamResponse "raw-tools-gemma")

/-- The raw-tools handler variant (ministral, 5-step cap, no try/catch). -/
def chatPOSTRawMinistral (env : Env) : Except JSError HandlerOutcome :=
  match env.createClient with
  | .error e => .error e
  | .ok mcpClient =>
    match mcpClient.tools with
    | .error e => .error e
    | .ok _tools => .ok (.streamResponse "raw-tools-ministral")

/-- JavaScript try/finally (no catch): the finalizer always runs; a throw
from the finalizer supersedes the body's disposition, otherwise the body's
result — including a thrown error — passes through. -/
def tryFinallyE (body : Except JSError HandlerOutcome)
    (finalizer : Except JSError Unit) : Except JSError HandlerOutcome :=
  match finalizer with
  | .error e => .error e
  | .ok _ => body

/-- The structured multi-stage handler: the client is constructed before
the try, so a construction failure propagates without any close; the
seven-step body (abstracted here as a parameter, since no claim depends on
its internals) runs inside try/finally with `mcpClient.close()` as the
finalizer and no catch — body errors propagate after closing. -/
def chatPOSTStructured (env : Env)
    (body : MCPClient → Except JSError HandlerOutcome) : Except JSError HandlerOutcome :=
  match env.createClient with
  | .error e => .error e
  | .ok mcpClient =>
    tryFinallyE (body mcpClient)
      (match mcpClient.close with
       | some r => r
       | none => .error (.err "mcpClient.close is not a function"))

/-- The orchestrator-driven handler: gather context via the orchestrator,
then branch on the stage.  On `fully_resolved`: generate SQL, strip
code fences, execute it, stream an explanation.  On `projects_listed`:
stream a clarification.  Otherwise: plain fallback chat.  No close call
occurs anywhere in the handler.  A `generateText` rejection is caught and
becomes the 500 body. -/
def chatPOSTOrchestrator (env : Env) (gen : GenEnv) (lastMessageContent : String) :
    HandlerOutcome × Orchestrator :=
  let orc := Orchestrator.fresh
  let co := orc.getDatabaseContext env lastMessageContent
  let context := co.1
  let orc := co.2
  match context.success, context.data with
  | true, some (.fullyResolved project _tables schemas) =>
    (match gen.generateSql schemas lastMessageContent with
     | .error e => (http500 e, orc)
     | .ok sql =>
       let cleaner := cleanerSql sql
       let qo := orc.runQuery env project.id cleaner
       (.streamResponse "orchestrator-explained-result", qo.2))
  | true, some (.projectsListedRaw _) => (.streamResponse "orchestrator-clarify", orc)
  | true, some (.projectsListed _ _) => (.streamResponse "orchestrator-clarify", orc)
  | _, _ => (.streamResponse "orchestrator-fallback", orc)

/-! ## Concrete oracles used by witnesses and counterexamples -/

/-- A well-behaved remote service: two projects whose ids do fall inside
the regex's `[a-f0-9-]` class, one table, and textual schema/query output.
Every call resolves. -/
def clientA : MCPClient where
  callTool := fun c => .ok (
    if c.name == "list_projects" then
      .jstr "1. **alpha** – Project ID: `abc-123`\n2. **beta** – Project ID: `bead-99`"
    else if c.name == "get_database_tables" then .jstr "Tables:\n- users"
    else if c.name == "describe_table_schema" then .jstr "users: id integer primary key"
    else .jstr "rows: []")
  tools := .ok (.jobj [])
  close := some (.ok ())

/-- Environment whose client construction succeeds with `clientA`. -/
def envA : Env := ⟨.ok clientA⟩

/-- Like `clientA`, but the matched project's table listing contains no
line the table regex can match. -/
def clientB : MCPClient where
  callTool := fun c => .ok (
    if c.name == "list_projects" then
      .jstr "1. **alpha** – Project ID: `abc-123`\n2. **beta** – Project ID: `bead-99`"
    else if c.name == "get_database_tables" then .jstr "This branch has an empty schema."
    else .jstr "unused")
  tools := .ok (.jobj [])
  close := some (.ok ())

/-- Environment whose client construction succeeds with `clientB`. -/
def envB : Env := ⟨.ok clientB⟩

/-- A client whose every remote call rejects with an `Error`. -/
def alwaysRejectClient : MCPClient2 := ⟨fun _ _ => .error (.err "network down")⟩

/-- A client that resolves with a record of the tool name and argument
envelope it received, exposing exactly what the underlying `callTool`
invocation was given. -/
def recordingClient : MCPClient2 :=
  ⟨fun n args => .ok (.jobj [("called", .jstr n), ("args", args)])⟩

/-- A generation oracle that returns fenced SQL. -/
def genOk : GenEnv := ⟨fun _ _ => .ok "```sql\nSELECT 1;\n```"⟩

/-- A generation oracle whose model call rejects. -/
def genFail : GenEnv := ⟨fun _ _ => .error (.err "model offline")⟩

/-- Number of close invocations in a resource trace. -/
def countClosed (t : List REvent) : Nat :=
  (t.filter (fun e => e == REvent.closed)).length

/-- Number of client constructions in a resource trace. -/
def countCreated (t : List REvent) : Nat :=
  (t.filter (fun e => e == REvent.created)).length

/-! ## Helper lemmas: log accumulation and resource traces -/

theorem Orchestrator.log_logs (o : Orchestrator) (m : String) :
    (o.log m).logs = o.logs ++ [m] := rfl

theorem Orchestrator.log_trace (o : Orchestrator) (m : String) :
    (o.log m).trace = o.trace := rfl

theorem Orchestrator.init_logs (env : Env) (o : Orchestrator) :
    ∃ t, ((o.init env).2).logs = o.logs ++ t := by
  unfold Orchestrator.init
  cases h : o.mcpClient with
  | some c => exact ⟨[], by simp⟩
  | none =>
    cases he : env.createClient with
    | ok c => exact ⟨["Initializing MCP Client..."], by simp [he, Orchestrator.log]⟩
    | error e => exact ⟨["Initializing MCP Client..."], by simp [he, Orchestrator.log]⟩

theorem countClosed_append_created (t : List REvent) :
    countClosed (t ++ [REvent.created]) = countClosed t := by
  simp [countClosed]

theorem Orchestrator.init_closed (env : Env) (o : Orchestrator) :
    countClosed ((o.init env).2).trace = countClosed o.trace := by
  unfold Orchestrator.init
  cases h : o.mcpClient with
  | some c => simp
  | none =>
    cases he : env.createClient with
    | ok c => simp [he, Orchestrator.log, countClosed_append_created]
    | error e => simp [he, Orchestrator.log]

theorem describeTables_logs (client : MCPClient) (pid : String) :
    ∀ (ts : List String) (o : Orchestrator),
      ∃ t, ((describeTables client pid ts o).2).logs = o.logs ++ t := by
  intro ts
  induction ts with
  | nil => intro o; exact ⟨[], by simp [describeTables]⟩
  | cons a rest ih =>
    intro o
    unfold describeTables
    cases hc : client.callTool ⟨"describe_table_schema", describeSchemaCallArgs pid a⟩ with
    | error e =>
      exact ⟨["Step 3: Describing table " ++ a ++ "..."], by simp [hc, Orchestrator.log]⟩
    | ok r =>
      obtain ⟨t, ht⟩ := ih (o.log ("Step 3: Describing table " ++ a ++ "..."))
      rcases hd : describeTables client pid rest
          (o.log ("Step 3: Describing table " ++ a ++ "...")) with ⟨res, o2⟩
      rw [hd] at ht
      rw [Orchestrator.log_logs] at ht
      refine ⟨["Step 3: Describing table " ++ a ++ "..."] ++ t, ?_⟩
      simp only [hc, hd]
      cases res <;> simpa using ht

theorem describeTables_trace (client : MCPClient) (pid : String) :
    ∀ (ts : List String) (o : Orchestrator),
      ((describeTables client pid ts o).2).trace = o.trace := by
  intro ts
  induction ts with
  | nil => intro o; simp [describeTables]
  | cons a rest ih =>
    intro o
    unfold describeTables
    cases hc : client.callTool ⟨"describe_table_schema", describeSchemaCallArgs pid a⟩ with
    | error e => simp [hc, Orchestrator.log]
    | ok r =>
      have ht := ih (o.log ("Step 3: Describing table " ++ a ++ "..."))
      rcases hd : describeTables client pid rest
          (o.log ("Step 3: Describing table " ++ a ++ "...")) with ⟨res, o2⟩
      rw [hd] at ht
      rw [Orchestrator.log_trace] at ht
      simp only [hc, hd]
      cases res <;> simpa using ht

theorem describeTablesOk (client : MCPClient) (pid : String)
    (hAll : ∀ c, ∃ r, client.callTool c = .ok r) :
    ∀ (ts : List String) (o : Orchestrator),
      ∃ ss o2, describeTables client pid ts o = (.ok ss, o2) := by
  intro ts
  induction ts with
  | nil => intro o; exact ⟨[], o, rfl⟩
  | cons a rest ih =>
    intro o
    obtain ⟨r, hr⟩ := hAll ⟨"describe_table_schema", describeSchemaCallArgs pid a⟩
    obtain ⟨ss, o2, hrec⟩ := ih (o.log ("Step 3: Describing table " ++ a ++ "..."))
    refine ⟨resultToStr r :: ss, o2, ?_⟩
    unfold describeTables
    simp only [hr, hrec]

theorem resolveFromProjects_logs (o : Orchestrator) (client : MCPClient)
    (q ps : String) :
    ∃ t, ((o.resolveFromProjects client q ps).2).logs = o.logs ++ t ∧
      ((o.resolveFromProjects client q ps).1).logs =
        ((o.resolveFromProjects client q ps).2).logs := by
  unfold Orchestrator.resolveFromProjects
  cases hE : (parseProjects ps).isEmpty with
  | true => exact ⟨["Could not parse project list via regex."],
      by simp [hE, Orchestrator.log], by simp [hE, Orchestrator.log]⟩
  | false =>
    cases hH : ((parseProjects ps).filter
        (fun p => strIncludes (jsToLower q) (jsToLower p.name))).head? with
    | none => exact ⟨[], by simp [hE, hH], by simp [hE, hH]⟩
    | some p =>
      set m1 := "Found target project: " ++ p.name ++ " (" ++ p.id ++ ")" with hm1
      set m2 := "Step 2: Getting tables for " ++ p.name ++ "..." with hm2
      cases hc : client.callTool ⟨"get_database_tables", getTablesCallArgs p.id⟩ with
      | error e =>
        exact ⟨[m1, m2], by simp [hE, hH, hc, Orchestrator.log],
          by simp [hE, hH, hc, Orchestrator.log, catchPipeline]⟩
      | ok tv =>
        obtain ⟨t, ht⟩ := describeTables_logs client p.id
          (parseTables (resultToStr tv)) ((o.log m1).log m2)
        rcases hd : describeTables client p.id (parseTables (resultToStr tv))
            ((o.log m1).log m2) with ⟨res, o2⟩
        rw [hd] at ht
        rw [Orchestrator.log_logs, Orchestrator.log_logs] at ht
        refine ⟨[m1, m2] ++ t, ?_, ?_⟩ <;>
          simp only [hE, hH, hc, hd] <;>
          cases res <;> simpa [catchPipeline] using ht

theorem resolveFromProjects_trace (o : Orchestrator) (client : MCPClient)
    (q ps : String) :
    ((o.resolveFromProjects client q ps).2).trace = o.trace := by
  unfold Orchestrator.resolveFromProjects
  cases hE : (parseProjects ps).isEmpty with
  | true => simp [hE, Orchestrator.log]
  | false =>
    cases hH : ((parseProjects ps).filter
        (fun p => strIncludes (jsToLower q) (jsToLower p.name))).head? with
    | none => simp [hE, hH]
    | some p =>
      set m1 := "Found target project: " ++ p.name ++ " (" ++ p.id ++ ")" with hm1
      set m2 := "Step 2: Getting tables for " ++ p.name ++ "..." with hm2
      cases hc : client.callTool ⟨"get_database_tables", getTablesCallArgs p.id⟩ with
      | error e => simp [hE, hH, hc, Orchestrator.log]
      | ok tv =>
        have ht := describeTables_trace client p.id
          (parseTables (resultToStr tv)) ((o.log m1).log m2)
        rcases hd : describeTables client p.id (parseTables (resultToStr tv))
            ((o.log m1).log m2) with ⟨res, o2⟩
        rw [hd] at ht
        rw [Orchestrator.log_trace, Orchestrator.log_trace] at ht
        simp only [hE, hH, hc, hd]
        cases res <;> simpa using ht

theorem getDatabaseContext_logs (env : Env) (o : Orchestrator) (q : String) :
    ∃ t, ((o.getDatabaseContext env q).2).logs = o.logs ++ t ∧
      ((o.getDatabaseContext env q).1).logs = ((o.getDatabaseContext env q).2).logs := by
  unfold Orchestrator.getDatabaseContext
  obtain ⟨ti, hti⟩ := Orchestrator.init_logs env o
  rcases hI : o.init env with ⟨ri, o1⟩
  rw [hI] at hti
  have hti2 : o1.logs = o.logs ++ ti := hti
  cases ri with
  | error e => exact ⟨ti, by simp [hI, hti2], by simp [hI, catchPipeline]⟩
  | ok client =>
    cases hc : client.callTool ⟨"list_projects", listProjectsCallArgs⟩ with
    | error e =>
      exact ⟨ti ++ ["Step 1: Listing Projects..."],
        by simp [hI, hc, Orchestrator.log, hti2],
        by simp [hI, hc, catchPipeline]⟩
    | ok pv =>
      cases hF : jsFalsy pv with
      | true =>
        exact ⟨ti ++ ["Step 1: Listing Projects..."],
          by simp [hI, hc, hF, Orchestrator.log, hti2],
          by simp [hI, hc, hF, catchPipeline]⟩
      | false =>
        obtain ⟨tr, htr1, htr2⟩ := resolveFromProjects_logs
          ((o1.log "Step 1: Listing Projects...").log
            ("Projects output: " ++ jsSlice (resultToStr pv) 100 ++ "..."))
          client q (resultToStr pv)
        rw [Orchestrator.log_logs, Orchestrator.log_logs, hti2] at htr1
        refine ⟨ti ++ ["Step 1: Listing Projects...",
          "Projects output: " ++ jsSlice (resultToStr pv) 100 ++ "..."] ++ tr, ?_, ?_⟩ <;>
          simp only [hI, hc, hF, Bool.false_eq_true, if_false]
        · rw [htr1]; simp
        · exact htr2

theorem getDatabaseContext_closed (env : Env) (o : Orchestrator) (q : String) :
    countClosed ((o.getDatabaseContext env q).2).trace = countClosed o.trace := by
  unfold Orchestrator.getDatabaseContext
  have hic := Orchestrator.init_closed env o
  rcases hI : o.init env with ⟨ri, o1⟩
  rw [hI] at hic
  have hic2 : countClosed o1.trace = countClosed o.trace := hic
  cases ri with
  | error e => simpa [hI] using hic2
  | ok client =>
    cases hc : client.callTool ⟨"list_projects", listProjectsCallArgs⟩ with
    | error e => simpa [hI, hc, Orchestrator.log] using hic2
    | ok pv =>
      cases hF : jsFalsy pv with
      | true => simpa [hI, hc, hF, Orchestrator.log] using hic2
      | false =>
        have hres := resolveFromProjects_trace
          ((o1.log "Step 1: Listing Projects...").log
            ("Projects output: " ++ jsSlice (resultToStr pv) 100 ++ "..."))
          client q (resultToStr pv)
        rw [Orchestrator.log_trace, Orchestrator.log_trace] at hres
        simp only [hI, hc, hF, Bool.false_eq_true, if_false]
        rw [hres, hic2]

theorem runQuery_logs (env : Env) (o : Orchestrator) (pid sql : String) :
    ∃ t, ((o.runQuery env pid sql).2).logs = o.logs ++ t ∧
      ((o.runQuery env pid sql).1).logs = ((o.runQuery env pid sql).2).logs := by
  unfold Orchestrator.runQuery
  obtain ⟨ti, hti⟩ := Orchestrator.init_logs env o
  rcases hI : o.init env with ⟨ri, o1⟩
  rw [hI] at hti
  have hti2 : o1.logs = o.logs ++ ti := hti
  cases ri with
  | error e => exact ⟨ti, by simp [hI, hti2], by simp [hI, catchPipeline]⟩
  | ok client =>
    cases hc : client.callTool ⟨"run_sql", runSqlCallArgs pid sql⟩ with
    | error e =>
      exact ⟨ti ++ ["Executing query on project " ++ pid ++ ": " ++ sql],
        by simp [hI, hc, Orchestrator.log, hti2],
        by simp [hI, hc, catchPipeline]⟩
    | ok rv =>
      exact ⟨ti ++ ["Executing query on project " ++ pid ++ ": " ++ sql],
        by simp [hI, hc, Orchestrator.log, hti2],
        by simp [hI, hc, Orchestrator.log]⟩

theorem runQuery_closed (env : Env) (o : Orchestrator) (pid sql : String) :
    countClosed ((o.runQuery env pid sql).2).trace = countClosed o.trace := by
  unfold Orchestrator.runQuery
  have hic := Orchestrator.init_closed env o
  rcases hI : o.init env with ⟨ri, o1⟩
  rw [hI] at hic
  have hic2 : countClosed o1.trace = countClosed o.trace := hic
  cases ri with
  | error e => simpa [hI] using hic2
  | ok client =>
    cases hc : client.callTool ⟨"run_sql", runSqlCallArgs pid sql⟩ with
    | error e => simpa [hI, hc, Orchestrator.log] using hic2
    | ok rv => simpa [hI, hc, Orchestrator.log] using hic2

/-! ## Claim theorems -/

/-- C1: the Orchestrator's project parser, applied to the listing text with
projects `mts-facturation` (id `square-lab-05687185`) and `my-app`
(id `proj-456`), yields the empty list — NOT the two `{name, id}` pairs the
claim requires.  The id capture class `[a-f0-9-]` cannot start matching at
`s` or `p`, so neither numbered line matches the project regex at all. -/
theorem c1_project_parser_rejects_real_ids :
    parseProjects ("1. **mts-facturation** – Project ID: `square-lab-05687185`\n" ++
      "2. **my-app** – Project ID: `proj-456`") = [] := by
  decide

/-- C9: the orchestrator-driven handler's SQL cleanup maps the fenced text
to exactly `SELECT 1;`, and is idempotent on that output. -/
theorem c9_sql_fence_cleanup :
    cleanerSql "```sql\nSELECT 1;\n```" = "SELECT 1;" ∧
    cleanerSql "SELECT 1;" = "SELECT 1;" := by
  constructor <;> decide

/-- C8: the orchestrator's log only grows; every pipeline result carries
the instance's full accumulated log; and a `getDatabaseContext` followed by
`runQuery` on the same instance yields a final result whose logs extend the
first call's logs (so both calls' lines appear in chronological order). -/
theorem c8_log_accumulation (env : Env) (o : Orchestrator) (q pid sql : String) :
    (∃ t1, ((o.getDatabaseContext env q).2).logs = o.logs ++ t1) ∧
    ((o.getDatabaseContext env q).1).logs = ((o.getDatabaseContext env q).2).logs ∧
    (∃ t2, ((((o.getDatabaseContext env q).2).runQuery env pid sql).2).logs =
      ((o.getDatabaseContext env q).2).logs ++ t2) ∧
    ((((o.getDatabaseContext env q).2).runQuery env pid sql).1).logs =
      ((((o.getDatabaseContext env q).2).runQuery env pid sql).2).logs ∧
    (∃ t3, ((((o.getDatabaseContext env q).2).runQuery env pid sql).1).logs =
      ((o.getDatabaseContext env q).1).logs ++ t3) := by
  obtain ⟨t1, h1, h1r⟩ := getDatabaseContext_logs env o q
  obtain ⟨t2, h2, h2r⟩ := runQuery_logs env ((o.getDatabaseContext env q).2) pid sql
  exact ⟨⟨t1, h1⟩, h1r, ⟨t2, h2⟩, h2r, ⟨t2, by rw [h2r, h2, h1r]⟩⟩

/-- C3: the orchestrator-driven chat handler never closes its
Orchestrator's protocol client — on every environment, generation oracle
and message, the handler's run performs zero close invocations; and on a
concrete fully-resolving run it has constructed exactly one client
(trace `[created]`, never closed). -/
theorem c3_orchestrator_handler_never_closes :
    (∀ (env : Env) (gen : GenEnv) (msg : String),
      countClosed ((chatPOSTOrchestrator env gen msg).2).trace = 0) ∧
    ((chatPOSTOrchestrator envA genOk "show me alpha tables").2).trace = [REvent.created] := by
  constructor
  · intro env gen msg
    have h1 := getDatabaseContext_closed env Orchestrator.fresh msg
    unfold chatPOSTOrchestrator
    rcases hC : Orchestrator.fresh.getDatabaseContext env msg with ⟨context, orc⟩
    rw [hC] at h1
    have h1o : countClosed orc.trace = 0 := h1
    simp only [hC]
    cases hs : context.success with
    | false =>
      cases hd : context.data with
      | none => simpa using h1o
      | some sd => cases sd <;> simpa using h1o
    | true =>
      cases hd : context.data with
      | none => simpa using h1o
      | some sd =>
        cases sd with
        | projectsListedRaw s => simpa using h1o
        | projectsListed a b => simpa using h1o
        | raw v => simpa using h1o
        | fullyResolved project tables schemas =>
          cases hg : gen.generateSql schemas msg with
          | error e => simp only [hg]; simpa using h1o
          | ok sql =>
            have h2 := runQuery_closed env orc project.id (cleanerSql sql)
            rw [h1o] at h2
            simp only [hg]
            simpa using h2
  · decide

/-- C6: invoking the get-project-tables tool wrapper with only a project id
(branch and database omitted) makes the underlying `callTool` invocation
receive `branch_id: "main"` and `database_name: "neondb"` — nested inside
the wrapper's `params` envelope in the tool-wrapper-library implementation,
and at top level in the tool-bundle (`createNeonTools`) implementation.
The recording client exhibits exactly what `execute` hands to `callTool`. -/
theorem c6_get_project_tables_defaults (pid : String) :
    getProjectTablesTool.execute recordingClient pid none none =
      .jobj [("called", .jstr "get_database_tables"),
             ("args", getProjectTablesTool.callArgs pid none none)] ∧
    (getProjectTablesTool.callArgs pid none none).getPath "params" "branch_id" =
      some (.jstr "main") ∧
    (getProjectTablesTool.callArgs pid none none).getPath "params" "database_name" =
      some (.jstr "neondb") ∧
    (neonToolsGetProjectTablesArgs pid none).getField "branch_id" = some (.jstr "main") ∧
    (neonToolsGetProjectTablesArgs pid none).getField "database_name" =
      some (.jstr "neondb") := by
  exact ⟨rfl, rfl, rfl, rfl, rfl⟩

/-- C10: the orchestrator's `runQuery` sends `run_sql` an argument object
containing only `project_id` and `query` (no `database_name` at any level),
while the run-query tool wrapper and the tool bundle both send
`database_name: "neondb"`; hence the orchestrator's argument set differs
from both other run-query call paths for every project id and SQL text. -/
theorem c10_run_sql_argument_divergence (pid q : String) :
    runSqlCallArgs pid q = .jobj [("project_id", .jstr pid), ("query", .jstr q)] ∧
    (runSqlCallArgs pid q).getField "database_name" = none ∧
    (runSqlCallArgs pid q).getField "params" = none ∧
    (runQueryTool.callArgs pid q none).getPath "params" "database_name" =
      some (.jstr "neondb") ∧
    (neonToolsRunQueryArgs pid q).getField "database_name" = some (.jstr "neondb") ∧
    runSqlCallArgs pid q ≠ runQueryTool.callArgs pid q none ∧
    runSqlCallArgs pid q ≠ neonToolsRunQueryArgs pid q := by
  refine ⟨rfl, rfl, rfl, rfl, rfl, ?_, ?_⟩
  · intro h
    have h2 : (runQueryTool.callArgs pid q none).getField "params" = none := by
      rw [← h]; exact rfl
    exact Option.noConfusion h2
  · intro h
    have h2 : (neonToolsRunQueryArgs pid q).getField "database_name" = none := by
      rw [← h]; exact rfl
    exact Option.noConfusion h2

/-- C5: for each of the four Tool Wrapper Library tools, whenever the
injected client's `callTool` rejects, the tool's `execute` resolves with an
object carrying a string `error` field — the rejection's message when the
thrown value is an `Error`, otherwise that tool's fixed fallback message.
(`execute` is a total function into `JValue`: it cannot reject.) -/
theorem c5_tool_error_containment (client : MCPClient2) (e : JSError)
    (h : ∀ n args, client.callTool n args = .error e)
    (pid tableName query : String) (branchId databaseName dbn2 dbn3 : Option String) :
    listProjectsTool.execute client =
      .jobj [("error", .jstr (jsErrMessageOr e "Failed to list projects"))] ∧
    getProjectTablesTool.execute client pid branchId databaseName =
      .jobj [("error", .jstr (jsErrMessageOr e "Failed to get tables"))] ∧
    runQueryTool.execute client pid query dbn2 =
      .jobj [("error", .jstr (jsErrMessageOr e "Failed to run query"))] ∧
    describeTableTool.execute client pid tableName dbn3 =
      .jobj [("error", .jstr (jsErrMessageOr e "Failed to describe table"))] := by
  refine ⟨?_, ?_, ?_, ?_⟩ <;>
    simp [listProjectsTool.execute, getProjectTablesTool.execute,
      runQueryTool.execute, describeTableTool.execute, h]

/-- C5 witness: the containment at a concrete always-rejecting client. -/
theorem c5_tool_error_containment_witness :
    listProjectsTool.execute alwaysRejectClient =
      .jobj [("error", .jstr "network down")] ∧
    getProjectTablesTool.execute alwaysRejectClient "p1" none none =
      .jobj [("error", .jstr "network down")] ∧
    runQueryTool.execute alwaysRejectClient "p1" "SELECT 1" none =
      .jobj [("error", .jstr "network down")] ∧
    describeTableTool.execute alwaysRejectClient "p1" "users" none =
      .jobj [("error", .jstr "network down")] :=
  c5_tool_error_containment alwaysRejectClient (.err "network down")
    (fun _ _ => rfl) "p1" "users" "SELECT 1" none none none none

/-- C4 counterexample: the raw-tools handler variant (gemma3, no
try/catch).  When client construction throws `Error("boom")`, the handler
propagates the thrown error instead of producing the HTTP 500 JSON body the
claim requires of every variant. -/
theorem c4_counterexample_raw_tools_propagates :
    chatPOSTRawGemma ⟨Except.error (JSError.err "boom")⟩ =
      Except.error (JSError.err "boom") ∧
    chatPOSTRawGemma ⟨Except.error (JSError.err "boom")⟩ ≠
      Except.ok (http500 (JSError.err "boom")) := by
  refine ⟨rfl, ?_⟩
  intro h
  exact Except.noConfusion h

/-- C4 amended: only the handler variants that wrap setup in try/catch (the
primary route, the wrapped-tools variant, the orchestrator-driven variant)
answer a synchronous setup error with the 500 body
`{error: "Failed to process your request", details: message or "Unknown error"}`;
the two raw-tools variants propagate setup errors uncaught, and the
structured multi-stage variant propagates them too (closing its client
first when construction had succeeded, not at all when construction itself
threw). -/
theorem c4_amended_error_surface :
    (∀ e, chatPOSTPrimary ⟨.error e⟩ =
      .errorResponse 500 "Failed to process your request" (jsErrMessageOr e "Unknown error")) ∧
    (∀ e, chatPOSTWrapped ⟨.error e⟩ =
      .errorResponse 500 "Failed to process your request" (jsErrMessageOr e "Unknown error")) ∧
    (∀ e, chatPOSTRawGemma ⟨.error e⟩ = .error e) ∧
    (∀ e, chatPOSTRawMinistral ⟨.error e⟩ = .error e) ∧
    (∀ e body, chatPOSTStructured ⟨.error e⟩ body = .error e) ∧
    (∀ e, chatPOSTStructured ⟨.ok clientA⟩ (fun _ => .error e) = .error e) ∧
    ((chatPOSTOrchestrator envA genFail "show me alpha tables").1 =
      .errorResponse 500 "Failed to process your request" "model offline") := by
  refine ⟨fun e => rfl, fun e => rfl, fun e => rfl, fun e => rfl,
    fun e body => rfl, fun e => rfl, ?_⟩
  decide

theorem resolve_stage_nomatch (o : Orchestrator) (client : MCPClient) (q ps : String)
    (hne : parseProjects ps ≠ [])
    (hfilter : (parseProjects ps).filter
      (fun p => strIncludes (jsToLower q) (jsToLower p.name)) = []) :
    ((o.resolveFromProjects client q ps).1).stage = some "projects_listed" := by
  unfold Orchestrator.resolveFromProjects
  have hE : (parseProjects ps).isEmpty = false := by
    cases hp : parseProjects ps with
    | nil => exact absurd hp hne
    | cons a l => rfl
  simp [hE, hfilter, PipelineResult.stage, StageData.stage]

theorem resolve_stage_match (o : Orchestrator) (client : MCPClient) (q ps : String)
    (hAll : ∀ c, ∃ r, client.callTool c = .ok r)
    (p : Project) (rest : List Project)
    (hfilter : (parseProjects ps).filter
      (fun p => strIncludes (jsToLower q) (jsToLower p.name)) = p :: rest) :
    ((o.resolveFromProjects client q ps).1).stage = some "fully_resolved" ∧
    ((o.resolveFromProjects client q ps).1).projectOf = some p := by
  unfold Orchestrator.resolveFromProjects
  have hE : (parseProjects ps).isEmpty = false := by
    cases hp : parseProjects ps with
    | nil => rw [hp] at hfilter; simp at hfilter
    | cons a l => rfl
  obtain ⟨tv, htv⟩ := hAll ⟨"get_database_tables", getTablesCallArgs p.id⟩
  obtain ⟨ss, o2, hd⟩ := describeTablesOk client p.id hAll (parseTables (resultToStr tv))
    ((o.log ("Found target project: " ++ p.name ++ " (" ++ p.id ++ ")")).log
      ("Step 2: Getting tables for " ++ p.name ++ "..."))
  simp [hE, hfilter, htv, hd, PipelineResult.stage, StageData.stage,
    PipelineResult.projectOf]

theorem resolve_zero_tables (o : Orchestrator) (client : MCPClient) (q ps : String)
    (p : Project) (rest : List Project)
    (hfilter : (parseProjects ps).filter
      (fun p => strIncludes (jsToLower q) (jsToLower p.name)) = p :: rest)
    (tv : JValue)
    (htv : client.callTool ⟨"get_database_tables", getTablesCallArgs p.id⟩ = .ok tv)
    (hzero : parseTables (resultToStr tv) = []) :
    ((o.resolveFromProjects client q ps).1).success = true ∧
    ((o.resolveFromProjects client q ps).1).stage = some "fully_resolved" ∧
    ((o.resolveFromProjects client q ps).1).tablesOf = some [] ∧
    ((o.resolveFromProjects client q ps).1).schemasOf = some [] := by
  unfold Orchestrator.resolveFromProjects
  have hE : (parseProjects ps).isEmpty = false := by
    cases hp : parseProjects ps with
    | nil => rw [hp] at hfilter; simp at hfilter
    | cons a l => rfl
  have hd : describeTables client p.id []
      ((o.log ("Found target project: " ++ p.name ++ " (" ++ p.id ++ ")")).log
        ("Step 2: Getting tables for " ++ p.name ++ "...")) =
      (.ok [], ((o.log ("Found target project: " ++ p.name ++ " (" ++ p.id ++ ")")).log
        ("Step 2: Getting tables for " ++ p.name ++ "..."))) := rfl
  simp [hE, hfilter, htv, hzero, hd, PipelineResult.stage, StageData.stage,
    PipelineResult.tablesOf, PipelineResult.schemasOf]

theorem getDatabaseContext_reduces (env : Env) (client : MCPClient)
    (userQuery : String) (listV : JValue)
    (hEnv : env.createClient = .ok client)
    (hList : client.callTool ⟨"list_projects", listProjectsCallArgs⟩ = .ok listV)
    (hTruthy : jsFalsy listV = false) :
    Orchestrator.getDatabaseContext env Orchestrator.fresh userQuery =
      Orchestrator.resolveFromProjects
        { mcpClient := some client,
          logs := ["Initializing MCP Client...", "Step 1: Listing Projects...",
            "Projects output: " ++ jsSlice (resultToStr listV) 100 ++ "..."],
          trace := [REvent.created] }
        client userQuery (resultToStr listV) := by
  unfold Orchestrator.getDatabaseContext Orchestrator.init Orchestrator.fresh
  simp [hEnv, hList, hTruthy, Orchestrator.log]

/-- C2 counterexample: with two parsed projects `alpha` and `beta` and the
utterance "show alpha and beta" — in which BOTH project names occur
case-insensitively — `getDatabaseContext` returns stage `fully_resolved`
(resolving to the first match, `alpha`), not `projects_listed` as the claim
requires for more than one match. -/
theorem c2_counterexample_two_matches_fully_resolved :
    ((parseProjects
        "1. **alpha** – Project ID: `abc-123`\n2. **beta** – Project ID: `bead-99`").filter
      (fun p => strIncludes (jsToLower "show alpha and beta") (jsToLower p.name))).length
      = 2 ∧
    ((Orchestrator.getDatabaseContext envA Orchestrator.fresh "show alpha and beta").1).stage
      = some "fully_resolved" ∧
    ((Orchestrator.getDatabaseContext envA Orchestrator.fresh "show alpha and beta").1).projectOf
      = some ⟨"alpha", "abc-123"⟩ := by
  refine ⟨by decide, by decide, by decide⟩

/-- C2 amended: `getDatabaseContext` (on a fresh orchestrator, against a
client whose calls resolve and whose project listing parses non-empty)
returns stage `projects_listed` exactly when ZERO project names occur
case-insensitively in the utterance; when AT LEAST ONE occurs — not
exactly one — it resolves to the FIRST matching project in parsed order
and returns `fully_resolved`. -/
theorem c2_amended_match_selection (env : Env) (client : MCPClient)
    (userQuery : String) (listV : JValue)
    (hEnv : env.createClient = .ok client)
    (hList : client.callTool ⟨"list_projects", listProjectsCallArgs⟩ = .ok listV)
    (hTruthy : jsFalsy listV = false)
    (hNonempty : parseProjects (resultToStr listV) ≠ [])
    (hAll : ∀ c, ∃ r, client.callTool c = .ok r) :
    (((parseProjects (resultToStr listV)).filter
        (fun p => strIncludes (jsToLower userQuery) (jsToLower p.name))) = [] →
      ((Orchestrator.getDatabaseContext env Orchestrator.fresh userQuery).1).stage =
        some "projects_listed") ∧
    (∀ p rest, ((parseProjects (resultToStr listV)).filter
        (fun p => strIncludes (jsToLower userQuery) (jsToLower p.name))) = p :: rest →
      ((Orchestrator.getDatabaseContext env Orchestrator.fresh userQuery).1).stage =
        some "fully_resolved" ∧
      ((Orchestrator.getDatabaseContext env Orchestrator.fresh userQuery).1).projectOf =
        some p) := by
  rw [getDatabaseContext_reduces env client userQuery listV hEnv hList hTruthy]
  constructor
  · intro hf
    exact resolve_stage_nomatch _ client userQuery (resultToStr listV) hNonempty hf
  · intro p rest hf
    exact resolve_stage_match _ client userQuery (resultToStr listV) hAll p rest hf

/-- C2 amended, witness: against `clientA` and the utterance
"show me alpha tables" (exactly one name matches), the pipeline fully
resolves to `alpha`. -/
theorem c2_amended_match_selection_witness :
    ((Orchestrator.getDatabaseContext envA Orchestrator.fresh "show me alpha tables").1).stage
      = some "fully_resolved" ∧
    ((Orchestrator.getDatabaseContext envA Orchestrator.fresh "show me alpha tables").1).projectOf
      = some ⟨"alpha", "abc-123"⟩ :=
  (c2_amended_match_selection envA clientA "show me alpha tables"
      (.jstr "1. **alpha** – Project ID: `abc-123`\n2. **beta** – Project ID: `bead-99`")
      rfl rfl (by decide) (by decide) (fun c => ⟨_, rfl⟩)).2
    ⟨"alpha", "abc-123"⟩ [] (by decide)

/-- C7: when the matched project's table-list text yields zero parsed table
names, `getDatabaseContext` still returns `success: true` with stage
`fully_resolved`, `tables: []` and `schemas: []` — the zero-table case is
not an error. -/
theorem c7_zero_tables_fully_resolved (env : Env) (client : MCPClient)
    (userQuery : String) (listV tv : JValue) (p : Project) (rest : List Project)
    (hEnv : env.createClient = .ok client)
    (hList : client.callTool ⟨"list_projects", listProjectsCallArgs⟩ = .ok listV)
    (hTruthy : jsFalsy listV = false)
    (hMatch : (parseProjects (resultToStr listV)).filter
      (fun q2 => strIncludes (jsToLower userQuery) (jsToLower q2.name)) = p :: rest)
    (hTables : client.callTool ⟨"get_database_tables", getTablesCallArgs p.id⟩ = .ok tv)
    (hZero : parseTables (resultToStr tv) = []) :
    ((Orchestrator.getDatabaseContext env Orchestrator.fresh userQuery).1).success = true ∧
    ((Orchestrator.getDatabaseContext env Orchestrator.fresh userQuery).1).stage =
      some "fully_resolved" ∧
    ((Orchestrator.getDatabaseContext env Orchestrator.fresh userQuery).1).tablesOf =
      some [] ∧
    ((Orchestrator.getDatabaseContext env Orchestrator.fresh userQuery).1).schemasOf =
      some [] := by
  rw [getDatabaseContext_reduces env client userQuery listV hEnv hList hTruthy]
  exact resolve_zero_tables _ client userQuery (resultToStr listV) p rest hMatch tv
    hTables hZero

/-- C7 witness: against `clientB` (whose table listing contains no parseable
table line) and the utterance "show me alpha tables", the pipeline reports
success, `fully_resolved`, and empty tables/schemas. -/
theorem c7_zero_tables_fully_resolved_witness :
    ((Orchestrator.getDatabaseContext envB Orchestrator.fresh "show me alpha tables").1).success
      = true ∧
    ((Orchestrator.getDatabaseContext envB Orchestrator.fresh "show me alpha tables").1).stage
      = some "fully_resolved" ∧
    ((Orchestrator.getDatabaseContext envB Orchestrator.fresh "show me alpha tables").1).tablesOf
      = some [] ∧
    ((Orchestrator.getDatabaseContext envB Orchestrator.fresh "show me alpha tables").1).schemasOf
      = some [] :=
  c7_zero_tables_fully_resolved envB clientB "show me alpha tables"
    (.jstr "1. **alpha** – Project ID: `abc-123`\n2. **beta** – Project ID: `bead-99`")
    (.jstr "This branch has an empty schema.")
    ⟨"alpha", "abc-123"⟩ [] rfl rfl (by decide) (by decide) rfl (by decide)
